import Mathlib

/-!
Verification of the Kolmo-Social polling agent (src/main.py).

The program is sequential orchestration over four external services
(Google Drive, Gemini, R2 object storage, an HTTP webhook).  We embed it
shallowly: every external call is represented by its outcome, passed in
explicitly (an `Except String α` value for a call that can raise, keyed by
the argument that varies between calls where needed).  The functions of
main.py are then total Lean functions over those outcomes, mirroring the
Python control flow; a Python `try/except` becomes a `match` on the
`Except` value of the guarded body.  Machine-level details that no claim
touches (raw image bytes, chunked download loops, logging) are abstracted:
image data is an opaque `String`, and a download is its `Except` outcome.
-/

namespace KolmoSocial

/-! ## Python string primitives

Executable models of `str.strip()` (with no argument: remove surrounding
whitespace) and `str.lower()`, defined by structural recursion over the
character list so that the kernel can evaluate them on concrete inputs. -/

/-- Python `s.strip()`: drop leading and trailing whitespace. -/
def py_strip (s : String) : String :=
  ⟨List.reverse (List.dropWhile Char.isWhitespace
    (List.reverse (List.dropWhile Char.isWhitespace s.data)))⟩

/-- Python `s.lower()` (ASCII case folding). -/
def py_lower (s : String) : String :=
  ⟨s.data.map Char.toLower⟩

/-! ## Constants (src/main.py lines 51-53) -/

def DEFAULT_PROMPT_LINKEDIN : String :=
  "Write a professional, craftsmanship-focused LinkedIn caption for this image."

def DEFAULT_PROMPT_META : String :=
  "Write a casual, engaging Facebook/Instagram caption for this image."

def DEFAULT_PROMPT_GBP : String :=
  "Write an SEO-heavy Google Business Profile caption for this image with a \x27Call us\x27 CTA and no hashtags."

/-! ## Data model -/

/-- The prompt dictionary built in `get_prompts` (keys linkedin / meta / gbp). -/
structure Prompts where
  linkedin : String
  meta : String
  gbp : String
deriving Repr, DecidableEq

/-- The initial all-default dictionary of `get_prompts` (lines 122-126). -/
def defaultPrompts : Prompts :=
  { linkedin := DEFAULT_PROMPT_LINKEDIN
    meta := DEFAULT_PROMPT_META
    gbp := DEFAULT_PROMPT_GBP }

/-- One entry of a Drive listing with `fields="files(id, name)"`. -/
structure DriveFileMeta where
  id : String
  name : String
deriving Repr, DecidableEq

/-- The webhook form payload built in `process_file` (lines 192-215).
Python builds a dict; each optional field is `none` when the dict lacks
the key. -/
structure Payload where
  caption_linkedin : Option String := none
  caption_meta : Option String := none
  caption_gbp : Option String := none
  target : Option String := none
  image_url : Option String := none
deriving Repr, DecidableEq

/-- Terminal destinations a file can be relocated to. -/
inductive Dest where
  | processed
  | errors
deriving Repr, DecidableEq

/-- The configuration that matters to `process_file`: the two terminal
folder ids (`none` models an unset-or-empty, i.e. falsy, environment
variable) and whether `get_r2_client` returned a truthy client. -/
structure Config where
  idProcessed : Option String := none
  idErrors : Option String := none
  r2ClientAvailable : Bool := true
deriving Repr, DecidableEq

/-- Outcomes of the external calls one `process_file` invocation can make.
`modelResponse` maps the prompt argument of a Gemini call to that call's
outcome (the raw `response.text`); the other calls happen at most once. -/
structure ProcessEnv where
  downloadMedia : Except String String
  modelResponse : String → Except String String
  r2Put : Except String Unit
  r2Presign : Except String String
  postWebhook : Except String Nat

/-- Observable result of one `process_file` invocation:
whether (and with which form payload) the webhook POST was issued,
whether the R2 staging step ran, and which terminal relocations were
attempted. -/
structure ProcResult where
  webhookAttempted : Option Payload := none
  stagingInvoked : Bool := false
  moves : List Dest := []
deriving Repr, DecidableEq

/-! ## upload_to_r2 (lines 87-106): put_object then presign inside one
try; any failure is logged and converted to `None`. -/

def upload_to_r2 (putObject : Except String Unit)
    (presign : Except String String) : Option String :=
  match putObject with
  | .error _ => none
  | .ok _ =>
    match presign with
    | .error _ => none
    | .ok url => some url

/-! ## get_text_content (lines 108-119): download, decode, strip; any
failure is logged and converted to `None`.  `download` already bundles
the chunked read and the utf-8 decode outcome. -/

def get_text_content (download : String → Except String String)
    (fileId : String) : Option String :=
  match download fileId with
  | .ok text => some (py_strip text)
  | .error _ => none

/-! ## get_prompts (lines 121-146) -/

/-- One iteration of the for-loop of `get_prompts` (lines 133-143):
dispatch on the lowercased file name; a truthy (non-`None`, non-empty)
content overrides the corresponding prompt. -/
def applyPromptFile (download : String → Except String String)
    (ps : Prompts) (f : DriveFileMeta) : Prompts :=
  if py_lower f.name = "prompt_linkedin.txt" then
    match get_text_content download f.id with
    | some content => if content ≠ "" then { ps with linkedin := content } else ps
    | none => ps
  else if py_lower f.name = "prompt_meta.txt" then
    match get_text_content download f.id with
    | some content => if content ≠ "" then { ps with meta := content } else ps
    | none => ps
  else if py_lower f.name = "prompt_gbp.txt" then
    match get_text_content download f.id with
    | some content => if content ≠ "" then { ps with gbp := content } else ps
    | none => ps
  else ps

/-- `get_prompts`: start from the defaults; bail out (returning them) when
the service is unavailable or the config folder id is falsy; a listing
failure is caught and the dictionary built so far - the defaults, since
the loop had not started - is returned. -/
def get_prompts (serviceAvailable : Bool) (idConfig : Option String)
    (listConfigFiles : Except String (List DriveFileMeta))
    (download : String → Except String String) : Prompts :=
  if !serviceAvailable || idConfig.isNone then defaultPrompts
  else
    match listConfigFiles with
    | .error _ => defaultPrompts
    | .ok files => files.foldl (applyPromptFile download) defaultPrompts

/-! ## generate_caption (lines 148-159): on success return
`response.text.strip()`; on failure log and re-raise. -/

def generate_caption (modelResponse : Except String String) :
    Except String String :=
  match modelResponse with
  | .ok text => .ok (py_strip text)
  | .error e => .error e

/-! ## move_file (lines 161-173) -/

/-- The single `files().update` request issued by `move_file`:
`addParents` is the destination folder id, `removeParents` the
comma-joined list of the previously read parents. -/
structure UpdateCall where
  addParents : String
  removeParents : String
deriving Repr, DecidableEq

/-- The body of `move_file`'s `try` block: read the current parents, then
issue one update that adds the destination and removes all of them. -/
def move_file_body (getParents : Except String (List String))
    (update : UpdateCall → Except String Unit)
    (destination_folder_id : String) : Except String UpdateCall :=
  match getParents with
  | .error e => .error e
  | .ok parents =>
    match update { addParents := destination_folder_id
                   removeParents := String.intercalate "," parents } with
    | .error e => .error e
    | .ok _ =>
      .ok { addParents := destination_folder_id
            removeParents := String.intercalate "," parents }

/-- `move_file`: the `except` clause logs and absorbs every failure of the
body, so the function itself never raises. `.ok (some call)` means the
move succeeded via update request `call`; `.ok none` means a failure was
absorbed. -/
def move_file (getParents : Except String (List String))
    (update : UpdateCall → Except String Unit)
    (destination_folder_id : String) : Except String (Option UpdateCall) :=
  match move_file_body getParents update destination_folder_id with
  | .ok call => .ok (some call)
  | .error _ => .ok none

/-! ## process_file (lines 175-236) -/

/-- `requests.Response.raise_for_status`: raises `HTTPError` exactly for
status codes in [400, 600); every other status returns normally. -/
def raise_for_status (statusCode : Nat) : Except String Unit :=
  if 400 ≤ statusCode ∧ statusCode < 600 then .error "HTTPError" else .ok ()

/-- The relocation attempted on the error path (lines 235-236): only when
`ID_ERRORS` is configured. -/
def errorMoves (cfg : Config) : List Dest :=
  if cfg.idErrors.isSome then [Dest.errors] else []

/-- The relocation attempted after a successful dispatch (lines 230-231):
only when `ID_PROCESSED` is configured. -/
def processedMoves (cfg : Config) : List Dest :=
  if cfg.idProcessed.isSome then [Dest.processed] else []

/-- Step 1 of `process_file` (lines 194-208): branch on the source type and
populate the caption field(s) and the `target` discriminator.  A source
type outside the four recognized values falls through, leaving the payload
empty.  Any `generate_caption` failure propagates. -/
def build_captions (gen : String → Except String String) (prompts : Prompts)
    (source_type : String) : Except String Payload :=
  if source_type = "linkedin" then
    match generate_caption (gen prompts.linkedin) with
    | .ok c => .ok { caption_linkedin := some c, target := some "linkedin" }
    | .error e => .error e
  else if source_type = "meta" then
    match generate_caption (gen prompts.meta) with
    | .ok c => .ok { caption_meta := some c, target := some "meta" }
    | .error e => .error e
  else if source_type = "gbp" then
    match generate_caption (gen prompts.gbp) with
    | .ok c => .ok { caption_gbp := some c, target := some "gbp" }
    | .error e => .error e
  else if source_type = "all" then
    match generate_caption (gen prompts.linkedin) with
    | .error e => .error e
    | .ok cl =>
      match generate_caption (gen prompts.meta) with
      | .error e => .error e
      | .ok cm =>
        match generate_caption (gen prompts.gbp) with
        | .error e => .error e
        | .ok cg =>
          .ok { caption_linkedin := some cl, caption_meta := some cm
                caption_gbp := some cg, target := some "all" }
  else .ok {}

/-- Step 2 of `process_file` (lines 210-215): upload to R2 only when the
source type is meta or all and an R2 client exists; a truthy returned URL
is added to the payload as `image_url`.  Returns (whether the upload step
ran, the possibly-extended payload). -/
def apply_staging (cfg : Config) (source_type : String)
    (putObject : Except String Unit) (presign : Except String String)
    (payload : Payload) : Bool × Payload :=
  if (source_type = "meta" ∨ source_type = "all") ∧ cfg.r2ClientAvailable = true then
    match upload_to_r2 putObject presign with
    | some url =>
      (true, if url ≠ "" then { payload with image_url := some url } else payload)
    | none => (true, payload)
  else (false, payload)

/-- Steps 3-4 of `process_file` (lines 217-231), reached once download and
caption generation have succeeded: run the staging step, POST the payload,
check the status, and attempt the terminal relocation.  A POST exception
or an error status lands in the `except` clause (lines 233-236). -/
def dispatch_and_relocate (env : ProcessEnv) (cfg : Config)
    (source_type : String) (payload0 : Payload) : ProcResult :=
  let sp := apply_staging cfg source_type env.r2Put env.r2Presign payload0
  match env.postWebhook with
  | .error _ =>
    { webhookAttempted := some sp.2, stagingInvoked := sp.1, moves := errorMoves cfg }
  | .ok status =>
    match raise_for_status status with
    | .error _ =>
      { webhookAttempted := some sp.2, stagingInvoked := sp.1, moves := errorMoves cfg }
    | .ok _ =>
      { webhookAttempted := some sp.2, stagingInvoked := sp.1, moves := processedMoves cfg }

/-- `process_file`: download, build captions, stage, dispatch, relocate;
any failure up to and including the status check relocates to the errors
folder (when configured) instead.  The relocations themselves go through
`move_file`, which absorbs its own failures, so they do not alter the
control flow; `moves` records the attempted destinations. -/
def process_file (env : ProcessEnv) (cfg : Config) (prompts : Prompts)
    (source_type : String) : ProcResult :=
  match env.downloadMedia with
  | .error _ => { moves := errorMoves cfg }
  | .ok _image_data =>
    match build_captions env.modelResponse prompts source_type with
    | .error _ => { moves := errorMoves cfg }
    | .ok payload0 => dispatch_and_relocate env cfg source_type payload0

/-- Whether the dispatch step of this attempt returns success: the POST is
reached (download and captions succeeded), does not itself raise, and its
status passes `raise_for_status`. -/
def dispatch_returned_success (env : ProcessEnv) (prompts : Prompts)
    (source_type : String) : Bool :=
  (match env.downloadMedia with | .ok _ => true | .error _ => false) &&
  (match build_captions env.modelResponse prompts source_type with
   | .ok _ => true | .error _ => false) &&
  (match env.postWebhook with
   | .ok s => match raise_for_status s with | .ok _ => true | .error _ => false
   | .error _ => false)

/-- The 2xx success notion used by the specification text
("success = 2xx status").  Kept separate from `raise_for_status`, which is
what the code actually applies, so the two can be compared. -/
def spec_success_2xx (statusCode : Nat) : Prop :=
  200 ≤ statusCode ∧ statusCode < 300

instance (s : Nat) : Decidable (spec_success_2xx s) := by
  unfold spec_success_2xx; infer_instance

/-! ## main (lines 238-283): the poll loop -/

/-- Outcome of one cycle of the `while True` loop, as seen by the
`try/except` at lines 259-283: the cycle body either completes, raises
`KeyboardInterrupt`, or raises some other exception. -/
inductive CycleOutcome where
  | ok
  | interrupt
  | exn (msg : String)
deriving Repr, DecidableEq

/-- Whether the loop is still running or was stopped by the interrupt
handler (lines 278-280). -/
inductive LoopStatus where
  | running
  | stoppedByInterrupt
deriving Repr, DecidableEq

/-- State of the poll loop after `n` cycle attempts, given the outcome of
each cycle body: the loop status together with the list of sleeps (in
seconds) performed so far.  Both a completed cycle (line 276) and a
non-interrupt exception (line 283) sleep 60 and continue; an interrupt
breaks out without sleeping. -/
def poll_loop (outcomes : Nat → CycleOutcome) : Nat → LoopStatus × List Nat
  | 0 => (LoopStatus.running, [])
  | n + 1 =>
    match poll_loop outcomes n with
    | (LoopStatus.stoppedByInterrupt, sleeps) => (LoopStatus.stoppedByInterrupt, sleeps)
    | (LoopStatus.running, sleeps) =>
      match outcomes n with
      | CycleOutcome.ok => (LoopStatus.running, sleeps ++ [60])
      | CycleOutcome.exn _ => (LoopStatus.running, sleeps ++ [60])
      | CycleOutcome.interrupt => (LoopStatus.stoppedByInterrupt, sleeps)

/-- Observable state of `main` after `n` cycle attempts. -/
inductive MainState where
  | exitedBeforeLoop
  | inLoop (st : LoopStatus × List Nat)
deriving Repr, DecidableEq

/-- `main` (lines 238-283): a falsy Drive service ends the process before
the loop (lines 242-245); otherwise the poll loop runs. -/
def main_after (driveServiceOk : Bool) (outcomes : Nat → CycleOutcome)
    (n : Nat) : MainState :=
  if driveServiceOk then MainState.inLoop (poll_loop outcomes n)
  else MainState.exitedBeforeLoop

/-! ## Helper lemmas about the caption and staging steps -/

/-- Shape of a successful `build_captions` result, per source type: the
recognized types populate exactly their caption field(s) plus `target`,
and no branch ever sets `image_url`. -/
lemma build_captions_ok (gen : String → Except String String)
    (prompts : Prompts) (st : String) (pl : Payload)
    (h : build_captions gen prompts st = .ok pl) :
    pl.image_url = none ∧
    (st = "linkedin" →
      ∃ c, pl = { caption_linkedin := some c, target := some "linkedin" }) ∧
    (st = "meta" →
      ∃ c, pl = { caption_meta := some c, target := some "meta" }) ∧
    (st = "gbp" →
      ∃ c, pl = { caption_gbp := some c, target := some "gbp" }) ∧
    (st = "all" →
      ∃ cl cm cg, pl = { caption_linkedin := some cl, caption_meta := some cm
                         caption_gbp := some cg, target := some "all" }) ∧
    (st ≠ "linkedin" → st ≠ "meta" → st ≠ "gbp" → st ≠ "all" → pl = {}) := by
  unfold build_captions at h
  by_cases h1 : st = "linkedin"
  · subst h1
    rw [if_pos rfl] at h
    cases hg : generate_caption (gen prompts.linkedin) with
    | error e => rw [hg] at h; exact Except.noConfusion h
    | ok c =>
      rw [hg] at h
      injection h with h
      subst h
      refine ⟨rfl, fun _ => ⟨c, rfl⟩, ?_, ?_, ?_, ?_⟩ <;> intro hst <;> simp_all
  · rw [if_neg h1] at h
    by_cases h2 : st = "meta"
    · subst h2
      rw [if_pos rfl] at h
      cases hg : generate_caption (gen prompts.meta) with
      | error e => rw [hg] at h; exact Except.noConfusion h
      | ok c =>
        rw [hg] at h
        injection h with h
        subst h
        refine ⟨rfl, ?_, fun _ => ⟨c, rfl⟩, ?_, ?_, ?_⟩ <;> intro hst <;> simp_all
    · rw [if_neg h2] at h
      by_cases h3 : st = "gbp"
      · subst h3
        rw [if_pos rfl] at h
        cases hg : generate_caption (gen prompts.gbp) with
        | error e => rw [hg] at h; exact Except.noConfusion h
        | ok c =>
          rw [hg] at h
          injection h with h
          subst h
          refine ⟨rfl, ?_, ?_, fun _ => ⟨c, rfl⟩, ?_, ?_⟩ <;> intro hst <;> simp_all
      · rw [if_neg h3] at h
        by_cases h4 : st = "all"
        · subst h4
          rw [if_pos rfl] at h
          cases hg1 : generate_caption (gen prompts.linkedin) with
          | error e => rw [hg1] at h; exact Except.noConfusion h
          | ok cl =>
            rw [hg1] at h
            cases hg2 : generate_caption (gen prompts.meta) with
            | error e => rw [hg2] at h; exact Except.noConfusion h
            | ok cm =>
              rw [hg2] at h
              cases hg3 : generate_caption (gen prompts.gbp) with
              | error e => rw [hg3] at h; exact Except.noConfusion h
              | ok cg =>
                rw [hg3] at h
                injection h with h
                subst h
                refine ⟨rfl, ?_, ?_, ?_, fun _ => ⟨cl, cm, cg, rfl⟩, ?_⟩ <;>
                  intro hst <;> simp_all
        · rw [if_neg h4] at h
          injection h with h
          subst h
          exact ⟨rfl, fun hst => absurd hst h1, fun hst => absurd hst h2,
            fun hst => absurd hst h3, fun hst => absurd hst h4, fun _ _ _ _ => rfl⟩

/-- The staging step runs exactly when the source type is meta or all and
an R2 client is available. -/
lemma apply_staging_fst (cfg : Config) (st : String) (put : Except String Unit)
    (pre : Except String String) (pl : Payload) :
    (apply_staging cfg st put pre pl).1 = true ↔
      ((st = "meta" ∨ st = "all") ∧ cfg.r2ClientAvailable = true) := by
  unfold apply_staging
  split_ifs with hc
  · cases hu : upload_to_r2 put pre <;> simp [hc]
  · simp [hc]

/-- The staging step only ever touches the `image_url` field. -/
lemma apply_staging_preserves (cfg : Config) (st : String)
    (put : Except String Unit) (pre : Except String String) (pl : Payload) :
    (apply_staging cfg st put pre pl).2.caption_linkedin = pl.caption_linkedin ∧
    (apply_staging cfg st put pre pl).2.caption_meta = pl.caption_meta ∧
    (apply_staging cfg st put pre pl).2.caption_gbp = pl.caption_gbp ∧
    (apply_staging cfg st put pre pl).2.target = pl.target := by
  unfold apply_staging
  split_ifs with hc
  · cases hu : upload_to_r2 put pre with
    | none => exact ⟨rfl, rfl, rfl, rfl⟩
    | some url =>
      simp only [hu]
      split_ifs <;> exact ⟨rfl, rfl, rfl, rfl⟩
  · exact ⟨rfl, rfl, rfl, rfl⟩

/-- When the staging condition fails, the payload is returned untouched. -/
lemma apply_staging_not_invoked (cfg : Config) (st : String)
    (put : Except String Unit) (pre : Except String String) (pl : Payload)
    (hc : ¬((st = "meta" ∨ st = "all") ∧ cfg.r2ClientAvailable = true)) :
    apply_staging cfg st put pre pl = (false, pl) := by
  unfold apply_staging
  rw [if_neg hc]

/-- If the payload carried no `image_url` and the staged payload carries
`some u`, then the R2 upload returned exactly the truthy url `u`. -/
lemma apply_staging_image_url (cfg : Config) (st : String)
    (put : Except String Unit) (pre : Except String String) (pl : Payload)
    (hpl : pl.image_url = none) (u : String)
    (h : (apply_staging cfg st put pre pl).2.image_url = some u) :
    upload_to_r2 put pre = some u ∧ u ≠ "" := by
  unfold apply_staging at h
  split_ifs at h with hc
  · cases hu : upload_to_r2 put pre with
    | none => simp only [hu] at h; rw [hpl] at h; exact Option.noConfusion h
    | some url =>
      simp only [hu] at h
      by_cases hne : url ≠ ""
      · rw [if_pos hne] at h
        simp only [Payload.image_url] at h
        injection h with h
        subst h
        exact ⟨rfl, hne⟩
      · rw [if_neg hne] at h
        rw [hpl] at h
        exact Option.noConfusion h
  · rw [hpl] at h
    exact Option.noConfusion h

/-! ## Helper lemmas about process_file -/

/-- Fields of `dispatch_and_relocate` that do not depend on the POST
outcome: the POST is always issued, with the staged payload. -/
lemma dispatch_and_relocate_fields (env : ProcessEnv) (cfg : Config)
    (st : String) (p0 : Payload) :
    (dispatch_and_relocate env cfg st p0).webhookAttempted =
      some (apply_staging cfg st env.r2Put env.r2Presign p0).2 ∧
    (dispatch_and_relocate env cfg st p0).stagingInvoked =
      (apply_staging cfg st env.r2Put env.r2Presign p0).1 := by
  unfold dispatch_and_relocate
  cases hpw : env.postWebhook with
  | error e => exact ⟨rfl, rfl⟩
  | ok s =>
    cases hrs : raise_for_status s with
    | error e => simp [hpw, hrs]
    | ok u => simp [hpw, hrs]

/-- If the webhook was issued, all prior stages succeeded and the payload
sent is the staged caption payload. -/
lemma process_file_webhook (env : ProcessEnv) (cfg : Config)
    (prompts : Prompts) (st : String) (pl : Payload)
    (h : (process_file env cfg prompts st).webhookAttempted = some pl) :
    ∃ p0, build_captions env.modelResponse prompts st = .ok p0 ∧
      pl = (apply_staging cfg st env.r2Put env.r2Presign p0).2 ∧
      (process_file env cfg prompts st).stagingInvoked =
        (apply_staging cfg st env.r2Put env.r2Presign p0).1 := by
  unfold process_file at h ⊢
  cases hdl : env.downloadMedia with
  | error e => simp only [hdl] at h; exact Option.noConfusion h
  | ok img =>
    simp only [hdl] at h ⊢
    cases hbc : build_captions env.modelResponse prompts st with
    | error e => simp only [hbc] at h; exact Option.noConfusion h
    | ok p0 =>
      simp only [hbc] at h ⊢
      obtain ⟨hw, hs⟩ := dispatch_and_relocate_fields env cfg st p0
      rw [hw] at h
      injection h with h
      exact ⟨p0, rfl, h.symm, hs⟩

/-- The terminal relocation of an attempt is decided exactly by the
success of the dispatch step. -/
lemma process_file_moves (env : ProcessEnv) (cfg : Config)
    (prompts : Prompts) (st : String) :
    (process_file env cfg prompts st).moves =
      (if dispatch_returned_success env prompts st = true then processedMoves cfg
       else errorMoves cfg) := by
  unfold process_file dispatch_returned_success
  cases hdl : env.downloadMedia with
  | error e => simp
  | ok img =>
    cases hbc : build_captions env.modelResponse prompts st with
    | error e => simp
    | ok p0 =>
      unfold dispatch_and_relocate
      cases hpw : env.postWebhook with
      | error e => simp
      | ok s =>
        cases hrs : raise_for_status s with
        | error e => simp [hrs]
        | ok u => simp [hrs]

/-- The staging step runs only for meta / all with an available client
(unconditional direction: failures before staging never set the flag). -/
lemma process_file_staging_invoked (env : ProcessEnv) (cfg : Config)
    (prompts : Prompts) (st : String)
    (h : (process_file env cfg prompts st).stagingInvoked = true) :
    (st = "meta" ∨ st = "all") ∧ cfg.r2ClientAvailable = true := by
  unfold process_file at h
  cases hdl : env.downloadMedia with
  | error e => rw [hdl] at h; exact Bool.noConfusion h
  | ok img =>
    rw [hdl] at h
    cases hbc : build_captions env.modelResponse prompts st with
    | error e => rw [hbc] at h; exact Bool.noConfusion h
    | ok p0 =>
      rw [hbc] at h
      rw [(dispatch_and_relocate_fields env cfg st p0).2] at h
      exact (apply_staging_fst cfg st env.r2Put env.r2Presign p0).1 h

/-- With download, captions and POST all succeeding up to the status check,
the success of the dispatch step is decided exactly by
`raise_for_status`, i.e. by the status not lying in [400, 600). -/
lemma dispatch_returned_success_status (env : ProcessEnv) (prompts : Prompts)
    (st : String) (s : Nat) (img : String) (p0 : Payload)
    (hdl : env.downloadMedia = .ok img)
    (hbc : build_captions env.modelResponse prompts st = .ok p0)
    (hpw : env.postWebhook = .ok s) :
    dispatch_returned_success env prompts st = true ↔ ¬(400 ≤ s ∧ s < 600) := by
  unfold dispatch_returned_success raise_for_status
  rw [hdl, hbc, hpw]
  by_cases hc : 400 ≤ s ∧ s < 600
  · simp [hc]
  · simp [hc]

/-! ## Concrete fixtures used by witnesses and counterexamples -/

/-- A run in which every external call succeeds and the webhook answers
200. -/
def envOK : ProcessEnv :=
  { downloadMedia := .ok "image-bytes"
    modelResponse := fun _ => .ok "generated caption"
    r2Put := .ok ()
    r2Presign := .ok "https://r2.example.com/presigned"
    postWebhook := .ok 200 }

/-- Same run, but the webhook answers 304 (not 2xx, yet not an error for
`raise_for_status`). -/
def env304 : ProcessEnv := { envOK with postWebhook := .ok 304 }

/-- Same run, but every Gemini call fails. -/
def envGenFail : ProcessEnv :=
  { envOK with modelResponse := fun _ => .error "Gemini generation failed" }

/-- Both terminal folders configured, R2 client available. -/
def cfgFull : Config :=
  { idProcessed := some "ID-PROCESSED"
    idErrors := some "ID-ERRORS"
    r2ClientAvailable := true }

/-- The payload dispatched for a linkedin-sourced file in `envOK`. -/
def payloadLinkedIn : Payload :=
  { caption_linkedin := some "generated caption", target := some "linkedin" }

/-- The payload dispatched for a gbp-sourced file in `envOK` / `env304`. -/
def payloadGbp : Payload :=
  { caption_gbp := some "generated caption", target := some "gbp" }

/-- The payload dispatched for a meta-sourced file in `envOK` (staging
succeeds, so `image_url` is present). -/
def payloadMeta : Payload :=
  { caption_meta := some "generated caption", target := some "meta"
    image_url := some "https://r2.example.com/presigned" }

/-! ## Claims -/

/-- Claim C1: for every file processed by process_file with a source type
in \x7blinkedin, meta, gbp\x7d, the dispatched payload contains exactly one
caption field (caption_linkedin, caption_meta, or caption_gbp
respectively) and a target field equal to that source type; for source
type all, the payload contains all three caption fields and target=all. -/
theorem claim_C1 (env : ProcessEnv) (cfg : Config) (prompts : Prompts)
    (st : String) (pl : Payload)
    (h : (process_file env cfg prompts st).webhookAttempted = some pl) :
    (st = "linkedin" → pl.caption_linkedin.isSome = true ∧ pl.caption_meta = none ∧
      pl.caption_gbp = none ∧ pl.target = some "linkedin") ∧
    (st = "meta" → pl.caption_meta.isSome = true ∧ pl.caption_linkedin = none ∧
      pl.caption_gbp = none ∧ pl.target = some "meta") ∧
    (st = "gbp" → pl.caption_gbp.isSome = true ∧ pl.caption_linkedin = none ∧
      pl.caption_meta = none ∧ pl.target = some "gbp") ∧
    (st = "all" → pl.caption_linkedin.isSome = true ∧ pl.caption_meta.isSome = true ∧
      pl.caption_gbp.isSome = true ∧ pl.target = some "all") := by
  obtain ⟨p0, hbc, hpl, _⟩ := process_file_webhook env cfg prompts st pl h
  obtain ⟨hcl, hcm, hcg, ht⟩ := apply_staging_preserves cfg st env.r2Put env.r2Presign p0
  obtain ⟨_, hlk, hmt, hgb, hall, _⟩ := build_captions_ok env.modelResponse prompts st p0 hbc
  subst hpl
  refine ⟨?_, ?_, ?_, ?_⟩
  · intro hst
    obtain ⟨c, hc⟩ := hlk hst
    rw [hcl, hcm, hcg, ht, hc]
    exact ⟨rfl, rfl, rfl, rfl⟩
  · intro hst
    obtain ⟨c, hc⟩ := hmt hst
    rw [hcl, hcm, hcg, ht, hc]
    exact ⟨rfl, rfl, rfl, rfl⟩
  · intro hst
    obtain ⟨c, hc⟩ := hgb hst
    rw [hcl, hcm, hcg, ht, hc]
    exact ⟨rfl, rfl, rfl, rfl⟩
  · intro hst
    obtain ⟨cl, cm, cg, hc⟩ := hall hst
    rw [hcl, hcm, hcg, ht, hc]
    exact ⟨rfl, rfl, rfl, rfl⟩

/-- Witness for C1 at a concrete linkedin-sourced run. -/
theorem claim_C1_witness :
    payloadLinkedIn.caption_linkedin.isSome = true ∧
    payloadLinkedIn.caption_meta = none ∧
    payloadLinkedIn.caption_gbp = none ∧
    payloadLinkedIn.target = some "linkedin" :=
  (claim_C1 envOK cfgFull defaultPrompts "linkedin" payloadLinkedIn (by decide)).1 rfl

/-- Claim C2: with both terminal folders configured, the file is relocated
to the processed folder iff the dispatch step returns success (the POST is
reached, does not raise, and its status passes the code's check); any
failure before or during dispatch relocates to the errors folder; at most
one terminal relocation is attempted per processing attempt. -/
theorem claim_C2 (env : ProcessEnv) (cfg : Config) (prompts : Prompts) (st : String)
    (hp : cfg.idProcessed.isSome = true) (he : cfg.idErrors.isSome = true) :
    ((process_file env cfg prompts st).moves = [Dest.processed] ↔
      dispatch_returned_success env prompts st = true) ∧
    (dispatch_returned_success env prompts st = false →
      (process_file env cfg prompts st).moves = [Dest.errors]) ∧
    (process_file env cfg prompts st).moves.length ≤ 1 := by
  have hm := process_file_moves env cfg prompts st
  have hpm : processedMoves cfg = [Dest.processed] := by
    unfold processedMoves; rw [if_pos hp]
  have hem : errorMoves cfg = [Dest.errors] := by
    unfold errorMoves; rw [if_pos he]
  cases hds : dispatch_returned_success env prompts st with
  | false =>
    rw [hds, if_neg Bool.false_ne_true, hem] at hm
    refine ⟨⟨?_, ?_⟩, fun _ => hm, ?_⟩
    · intro hmm
      rw [hm] at hmm
      exact absurd hmm (by decide)
    · intro hds'
      exact absurd hds' (by decide)
    · rw [hm]
      decide
  | true =>
    rw [hds, if_pos rfl, hpm] at hm
    refine ⟨⟨fun _ => rfl, fun _ => hm⟩, ?_, ?_⟩
    · intro hds'
      exact absurd hds' (by decide)
    · rw [hm]
      decide

/-- Witness for C2 at a concrete all-successful gbp-sourced run. -/
theorem claim_C2_witness :
    ((process_file envOK cfgFull defaultPrompts "gbp").moves = [Dest.processed] ↔
      dispatch_returned_success envOK defaultPrompts "gbp" = true) ∧
    (dispatch_returned_success envOK defaultPrompts "gbp" = false →
      (process_file envOK cfgFull defaultPrompts "gbp").moves = [Dest.errors]) ∧
    (process_file envOK cfgFull defaultPrompts "gbp").moves.length ≤ 1 :=
  claim_C2 envOK cfgFull defaultPrompts "gbp" (by decide) (by decide)

/-- Claim C3 counterexample: a 304 response is outside the 2xx range, yet
the code (via `raise_for_status`, which raises only for 400-599) treats
the dispatch as a success and relocates the file to the processed folder,
not the errors folder. -/
theorem claim_C3_counterexample :
    ¬ spec_success_2xx 304 ∧
    (process_file env304 cfgFull defaultPrompts "gbp").moves = [Dest.processed] ∧
    (process_file env304 cfgFull defaultPrompts "gbp").moves ≠ [Dest.errors] := by
  refine ⟨by decide, by decide, by decide⟩

/-- Claim C3 as amended: the dispatch step treats the response as a
failure (errors folder) exactly when the status lies in [400, 600), and
as a success (processed folder) exactly when it does not; statuses outside
2xx but below 400 (e.g. 304) count as success. -/
theorem claim_C3_amended (env : ProcessEnv) (cfg : Config) (prompts : Prompts)
    (st : String) (s : Nat) (img : String) (p0 : Payload)
    (hp : cfg.idProcessed.isSome = true) (he : cfg.idErrors.isSome = true)
    (hdl : env.downloadMedia = .ok img)
    (hbc : build_captions env.modelResponse prompts st = .ok p0)
    (hpw : env.postWebhook = .ok s) :
    ((process_file env cfg prompts st).moves = [Dest.errors] ↔ 400 ≤ s ∧ s < 600) ∧
    ((process_file env cfg prompts st).moves = [Dest.processed] ↔ ¬(400 ≤ s ∧ s < 600)) := by
  have hm := process_file_moves env cfg prompts st
  have hds := dispatch_returned_success_status env prompts st s img p0 hdl hbc hpw
  have hpm : processedMoves cfg = [Dest.processed] := by
    unfold processedMoves; rw [if_pos hp]
  have hem : errorMoves cfg = [Dest.errors] := by
    unfold errorMoves; rw [if_pos he]
  by_cases hc : 400 ≤ s ∧ s < 600
  · have hdsf : dispatch_returned_success env prompts st = false := by
      cases hb : dispatch_returned_success env prompts st with
      | false => rfl
      | true => exact absurd (hds.mp hb) (not_not_intro hc)
    rw [hdsf, if_neg Bool.false_ne_true, hem] at hm
    rw [hm]
    exact ⟨iff_of_true rfl hc,
      ⟨fun hmm => absurd hmm (by decide), fun hn => absurd hc hn⟩⟩
  · have hdst : dispatch_returned_success env prompts st = true := hds.mpr hc
    rw [hdst, if_pos rfl, hpm] at hm
    rw [hm]
    exact ⟨⟨fun hmm => absurd hmm (by decide), fun hcc => absurd hcc hc⟩,
      iff_of_true rfl hc⟩

/-- Witness for the amended C3 at the concrete 304 run. -/
theorem claim_C3_witness :
    ((process_file env304 cfgFull defaultPrompts "gbp").moves = [Dest.errors] ↔
      400 ≤ 304 ∧ 304 < 600) ∧
    ((process_file env304 cfgFull defaultPrompts "gbp").moves = [Dest.processed] ↔
      ¬(400 ≤ 304 ∧ 304 < 600)) :=
  claim_C3_amended env304 cfgFull defaultPrompts "gbp" 304 "image-bytes" payloadGbp
    (by decide) (by decide) rfl rfl rfl

/-- Claim C4: the staging upload is invoked iff the source type is meta or
all and an R2 client is available (the iff taken at attempts that reach
the dispatch step; the only-if direction holds unconditionally); otherwise
the dispatched payload has no image_url; and image_url is present only
when the upload returned that (truthy) URL. -/
theorem claim_C4 (env : ProcessEnv) (cfg : Config) (prompts : Prompts) (st : String) :
    ((process_file env cfg prompts st).stagingInvoked = true →
      (st = "meta" ∨ st = "all") ∧ cfg.r2ClientAvailable = true) ∧
    (∀ pl, (process_file env cfg prompts st).webhookAttempted = some pl →
      ((process_file env cfg prompts st).stagingInvoked = true ↔
        (st = "meta" ∨ st = "all") ∧ cfg.r2ClientAvailable = true) ∧
      (¬((st = "meta" ∨ st = "all") ∧ cfg.r2ClientAvailable = true) →
        pl.image_url = none) ∧
      (∀ u, pl.image_url = some u →
        upload_to_r2 env.r2Put env.r2Presign = some u ∧ u ≠ "")) := by
  refine ⟨process_file_staging_invoked env cfg prompts st, ?_⟩
  intro pl h
  obtain ⟨p0, hbc, hpl, hs⟩ := process_file_webhook env cfg prompts st pl h
  have himg : p0.image_url = none :=
    (build_captions_ok env.modelResponse prompts st p0 hbc).1
  refine ⟨?_, ?_, ?_⟩
  · rw [hs]
    exact apply_staging_fst cfg st env.r2Put env.r2Presign p0
  · intro hc
    rw [hpl, apply_staging_not_invoked cfg st env.r2Put env.r2Presign p0 hc]
    exact himg
  · intro u hu
    rw [hpl] at hu
    exact apply_staging_image_url cfg st env.r2Put env.r2Presign p0 himg u hu

/-- Witness for C4 at a concrete meta-sourced run with staging. -/
theorem claim_C4_witness :
    (("meta" = "meta" ∨ "meta" = "all") ∧ cfgFull.r2ClientAvailable = true) ∧
    (upload_to_r2 envOK.r2Put envOK.r2Presign = some "https://r2.example.com/presigned" ∧
      "https://r2.example.com/presigned" ≠ "") :=
  ⟨(claim_C4 envOK cfgFull defaultPrompts "meta").1 (by decide),
   ((claim_C4 envOK cfgFull defaultPrompts "meta").2 payloadMeta (by decide)).2.2
     "https://r2.example.com/presigned" (by decide)⟩

/-! ## Helper lemmas about get_prompts -/

/-- Whether a listed config file actually overrides the prompt for
well-known file name `fname`: its lowercased name matches and its
downloaded, stripped content is truthy. -/
def effective_override (download : String → Except String String)
    (f : DriveFileMeta) (fname : String) : Bool :=
  decide (py_lower f.name = fname) &&
  (match get_text_content download f.id with
   | some c => decide (c ≠ "")
   | none => false)

/-- A matching name with successfully downloaded, non-empty-after-strip
content is an effective override. -/
lemma effective_override_of (dl : String → Except String String)
    (f : DriveFileMeta) (nm s : String) (h1 : py_lower f.name = nm)
    (h2 : dl f.id = .ok s) (h3 : py_strip s ≠ "") :
    effective_override dl f nm = true := by
  simp [effective_override, get_text_content, h1, h2, h3]

/-- One loop iteration either leaves the linkedin prompt unchanged, or
installs the stripped non-empty content of a file named
prompt_linkedin.txt. -/
lemma applyPromptFile_linkedin (dl : String → Except String String)
    (ps : Prompts) (f : DriveFileMeta) :
    (applyPromptFile dl ps f).linkedin = ps.linkedin ∨
    (py_lower f.name = "prompt_linkedin.txt" ∧
      ∃ s, dl f.id = .ok s ∧ py_strip s ≠ "" ∧
        (applyPromptFile dl ps f).linkedin = py_strip s) := by
  unfold applyPromptFile
  by_cases h1 : py_lower f.name = "prompt_linkedin.txt"
  · rw [if_pos h1]
    cases hg : get_text_content dl f.id with
    | none => left; rfl
    | some c =>
      by_cases hc : c ≠ ""
      · right
        cases hdl : dl f.id with
        | error e =>
          rw [get_text_content, hdl] at hg
          exact Option.noConfusion hg
        | ok s =>
          have hcs : c = py_strip s := by
            unfold get_text_content at hg
            rw [hdl] at hg
            injection hg with hg
            exact hg.symm
          refine ⟨h1, s, rfl, ?_, ?_⟩
          · rw [← hcs]; exact hc
          · simp only [hg]
            rw [if_pos hc]
            exact hcs
      · left
        simp only [hg]
        rw [if_neg hc]
  · rw [if_neg h1]
    left
    by_cases h2 : py_lower f.name = "prompt_meta.txt"
    · rw [if_pos h2]
      cases hg : get_text_content dl f.id with
      | none => rfl
      | some c => simp only [hg]; split_ifs <;> rfl
    · rw [if_neg h2]
      by_cases h3 : py_lower f.name = "prompt_gbp.txt"
      · rw [if_pos h3]
        cases hg : get_text_content dl f.id with
        | none => rfl
        | some c => simp only [hg]; split_ifs <;> rfl
      · rw [if_neg h3]

/-- The loop of `get_prompts` either leaves the linkedin prompt at its
starting value, or sets it to the stripped non-empty content of some
listed file named prompt_linkedin.txt. -/
lemma foldl_prompts_linkedin (dl : String → Except String String) :
    ∀ (files : List DriveFileMeta) (ps : Prompts),
      (files.foldl (applyPromptFile dl) ps).linkedin = ps.linkedin ∨
      ∃ f ∈ files, py_lower f.name = "prompt_linkedin.txt" ∧
        ∃ s, dl f.id = .ok s ∧ py_strip s ≠ "" ∧
          (files.foldl (applyPromptFile dl) ps).linkedin = py_strip s := by
  intro files
  induction files with
  | nil => intro ps; left; rfl
  | cons f fs ih =>
    intro ps
    rw [List.foldl_cons]
    rcases ih (applyPromptFile dl ps f) with h | ⟨f', hf', hnm, s, hdls, hne, hval⟩
    · rcases applyPromptFile_linkedin dl ps f with h0 | ⟨hnm, s, hdls, hne, hval⟩
      · left; rw [h, h0]
      · right; exact ⟨f, List.mem_cons_self f fs, hnm, s, hdls, hne, h.trans hval⟩
    · right; exact ⟨f', List.mem_cons_of_mem f hf', hnm, s, hdls, hne, hval⟩

/-- With no effective linkedin override in the listing, the linkedin
prompt stays at its built-in default. -/
lemma get_prompts_linkedin_default (avail : Bool) (idc : Option String)
    (listRes : Except String (List DriveFileMeta))
    (dl : String → Except String String) (files : List DriveFileMeta)
    (hls : listRes = .ok files)
    (h : ∀ f ∈ files, effective_override dl f "prompt_linkedin.txt" = false) :
    (get_prompts avail idc listRes dl).linkedin = DEFAULT_PROMPT_LINKEDIN := by
  unfold get_prompts
  split_ifs with hg
  · rfl
  · simp only [hls]
    rcases foldl_prompts_linkedin dl files defaultPrompts with h0 | ⟨f, hf, hnm, s, hdls, hne, _⟩
    · rw [h0]; rfl
    · have hff := h f hf
      rw [effective_override_of dl f "prompt_linkedin.txt" s hnm hdls hne] at hff
      exact Bool.noConfusion hff

/-- If the linkedin prompt differs from its default, some listed file
named prompt_linkedin.txt supplied it as stripped non-empty content. -/
lemma get_prompts_linkedin_override (avail : Bool) (idc : Option String)
    (listRes : Except String (List DriveFileMeta))
    (dl : String → Except String String) (files : List DriveFileMeta)
    (hls : listRes = .ok files)
    (h : (get_prompts avail idc listRes dl).linkedin ≠ DEFAULT_PROMPT_LINKEDIN) :
    ∃ f ∈ files, py_lower f.name = "prompt_linkedin.txt" ∧
      ∃ s, dl f.id = .ok s ∧ py_strip s ≠ "" ∧
        (get_prompts avail idc listRes dl).linkedin = py_strip s := by
  unfold get_prompts at h ⊢
  split_ifs at h ⊢ with hg
  · exact absurd rfl h
  · simp only [hls] at h ⊢
    rcases foldl_prompts_linkedin dl files defaultPrompts with h0 | hov
    · exact absurd h0 h
    · exact hov

/-- One loop iteration either leaves the meta prompt unchanged, or
installs the stripped non-empty content of a file named prompt_meta.txt. -/
lemma applyPromptFile_meta (dl : String → Except String String)
    (ps : Prompts) (f : DriveFileMeta) :
    (applyPromptFile dl ps f).meta = ps.meta ∨
    (py_lower f.name = "prompt_meta.txt" ∧
      ∃ s, dl f.id = .ok s ∧ py_strip s ≠ "" ∧
        (applyPromptFile dl ps f).meta = py_strip s) := by
  unfold applyPromptFile
  by_cases h1 : py_lower f.name = "prompt_linkedin.txt"
  · rw [if_pos h1]
    left
    cases hg : get_text_content dl f.id with
    | none => rfl
    | some c => simp only [hg]; split_ifs <;> rfl
  · rw [if_neg h1]
    by_cases h2 : py_lower f.name = "prompt_meta.txt"
    · rw [if_pos h2]
      cases hg : get_text_content dl f.id with
      | none => left; rfl
      | some c =>
        by_cases hc : c ≠ ""
        · right
          cases hdl : dl f.id with
          | error e =>
            rw [get_text_content, hdl] at hg
            exact Option.noConfusion hg
          | ok s =>
            have hcs : c = py_strip s := by
              unfold get_text_content at hg
              rw [hdl] at hg
              injection hg with hg
              exact hg.symm
            refine ⟨h2, s, rfl, ?_, ?_⟩
            · rw [← hcs]; exact hc
            · simp only [hg]
              rw [if_pos hc]
              exact hcs
        · left
          simp only [hg]
          rw [if_neg hc]
    · rw [if_neg h2]
      left
      by_cases h3 : py_lower f.name = "prompt_gbp.txt"
      · rw [if_pos h3]
        cases hg : get_text_content dl f.id with
        | none => rfl
        | some c => simp only [hg]; split_ifs <;> rfl
      · rw [if_neg h3]

/-- One loop iteration either leaves the gbp prompt unchanged, or installs
the stripped non-empty content of a file named prompt_gbp.txt. -/
lemma applyPromptFile_gbp (dl : String → Except String String)
    (ps : Prompts) (f : DriveFileMeta) :
    (applyPromptFile dl ps f).gbp = ps.gbp ∨
    (py_lower f.name = "prompt_gbp.txt" ∧
      ∃ s, dl f.id = .ok s ∧ py_strip s ≠ "" ∧
        (applyPromptFile dl ps f).gbp = py_strip s) := by
  unfold applyPromptFile
  by_cases h1 : py_lower f.name = "prompt_linkedin.txt"
  · rw [if_pos h1]
    left
    cases hg : get_text_content dl f.id with
    | none => rfl
    | some c => simp only [hg]; split_ifs <;> rfl
  · rw [if_neg h1]
    by_cases h2 : py_lower f.name = "prompt_meta.txt"
    · rw [if_pos h2]
      left
      cases hg : get_text_content dl f.id with
      | none => rfl
      | some c => simp only [hg]; split_ifs <;> rfl
    · rw [if_neg h2]
      by_cases h3 : py_lower f.name = "prompt_gbp.txt"
      · rw [if_pos h3]
        cases hg : get_text_content dl f.id with
        | none => left; rfl
        | some c =>
          by_cases hc : c ≠ ""
          · right
            cases hdl : dl f.id with
            | error e =>
              rw [get_text_content, hdl] at hg
              exact Option.noConfusion hg
            | ok s =>
              have hcs : c = py_strip s := by
                unfold get_text_content at hg
                rw [hdl] at hg
                injection hg with hg
                exact hg.symm
              refine ⟨h3, s, rfl, ?_, ?_⟩
              · rw [← hcs]; exact hc
              · simp only [hg]
                rw [if_pos hc]
                exact hcs
          · left
            simp only [hg]
            rw [if_neg hc]
      · rw [if_neg h3]
        left
        rfl

/-- The loop of `get_prompts` either leaves the meta prompt at its
starting value, or sets it from some listed prompt_meta.txt file. -/
lemma foldl_prompts_meta (dl : String → Except String String) :
    ∀ (files : List DriveFileMeta) (ps : Prompts),
      (files.foldl (applyPromptFile dl) ps).meta = ps.meta ∨
      ∃ f ∈ files, py_lower f.name = "prompt_meta.txt" ∧
        ∃ s, dl f.id = .ok s ∧ py_strip s ≠ "" ∧
          (files.foldl (applyPromptFile dl) ps).meta = py_strip s := by
  intro files
  induction files with
  | nil => intro ps; left; rfl
  | cons f fs ih =>
    intro ps
    rw [List.foldl_cons]
    rcases ih (applyPromptFile dl ps f) with h | ⟨f', hf', hnm, s, hdls, hne, hval⟩
    · rcases applyPromptFile_meta dl ps f with h0 | ⟨hnm, s, hdls, hne, hval⟩
      · left; rw [h, h0]
      · right; exact ⟨f, List.mem_cons_self f fs, hnm, s, hdls, hne, h.trans hval⟩
    · right; exact ⟨f', List.mem_cons_of_mem f hf', hnm, s, hdls, hne, hval⟩

/-- The loop of `get_prompts` either leaves the gbp prompt at its starting
value, or sets it from some listed prompt_gbp.txt file. -/
lemma foldl_prompts_gbp (dl : String → Except String String) :
    ∀ (files : List DriveFileMeta) (ps : Prompts),
      (files.foldl (applyPromptFile dl) ps).gbp = ps.gbp ∨
      ∃ f ∈ files, py_lower f.name = "prompt_gbp.txt" ∧
        ∃ s, dl f.id = .ok s ∧ py_strip s ≠ "" ∧
          (files.foldl (applyPromptFile dl) ps).gbp = py_strip s := by
  intro files
  induction files with
  | nil => intro ps; left; rfl
  | cons f fs ih =>
    intro ps
    rw [List.foldl_cons]
    rcases ih (applyPromptFile dl ps f) with h | ⟨f', hf', hnm, s, hdls, hne, hval⟩
    · rcases applyPromptFile_gbp dl ps f with h0 | ⟨hnm, s, hdls, hne, hval⟩
      · left; rw [h, h0]
      · right; exact ⟨f, List.mem_cons_self f fs, hnm, s, hdls, hne, h.trans hval⟩
    · right; exact ⟨f', List.mem_cons_of_mem f hf', hnm, s, hdls, hne, hval⟩

/-- With no effective meta override in the listing, the meta prompt stays
at its built-in default. -/
lemma get_prompts_meta_default (avail : Bool) (idc : Option String)
    (listRes : Except String (List DriveFileMeta))
    (dl : String → Except String String) (files : List DriveFileMeta)
    (hls : listRes = .ok files)
    (h : ∀ f ∈ files, effective_override dl f "prompt_meta.txt" = false) :
    (get_prompts avail idc listRes dl).meta = DEFAULT_PROMPT_META := by
  unfold get_prompts
  split_ifs with hg
  · rfl
  · simp only [hls]
    rcases foldl_prompts_meta dl files defaultPrompts with h0 | ⟨f, hf, hnm, s, hdls, hne, _⟩
    · rw [h0]; rfl
    · have hff := h f hf
      rw [effective_override_of dl f "prompt_meta.txt" s hnm hdls hne] at hff
      exact Bool.noConfusion hff

/-- With no effective gbp override in the listing, the gbp prompt stays at
its built-in default. -/
lemma get_prompts_gbp_default (avail : Bool) (idc : Option String)
    (listRes : Except String (List DriveFileMeta))
    (dl : String → Except String String) (files : List DriveFileMeta)
    (hls : listRes = .ok files)
    (h : ∀ f ∈ files, effective_override dl f "prompt_gbp.txt" = false) :
    (get_prompts avail idc listRes dl).gbp = DEFAULT_PROMPT_GBP := by
  unfold get_prompts
  split_ifs with hg
  · rfl
  · simp only [hls]
    rcases foldl_prompts_gbp dl files defaultPrompts with h0 | ⟨f, hf, hnm, s, hdls, hne, _⟩
    · rw [h0]; rfl
    · have hff := h f hf
      rw [effective_override_of dl f "prompt_gbp.txt" s hnm hdls hne] at hff
      exact Bool.noConfusion hff

/-- If the meta prompt differs from its default, some listed
prompt_meta.txt file supplied it as stripped non-empty content. -/
lemma get_prompts_meta_override (avail : Bool) (idc : Option String)
    (listRes : Except String (List DriveFileMeta))
    (dl : String → Except String String) (files : List DriveFileMeta)
    (hls : listRes = .ok files)
    (h : (get_prompts avail idc listRes dl).meta ≠ DEFAULT_PROMPT_META) :
    ∃ f ∈ files, py_lower f.name = "prompt_meta.txt" ∧
      ∃ s, dl f.id = .ok s ∧ py_strip s ≠ "" ∧
        (get_prompts avail idc listRes dl).meta = py_strip s := by
  unfold get_prompts at h ⊢
  split_ifs at h ⊢ with hg
  · exact absurd rfl h
  · simp only [hls] at h ⊢
    rcases foldl_prompts_meta dl files defaultPrompts with h0 | hov
    · exact absurd h0 h
    · exact hov

/-- If the gbp prompt differs from its default, some listed prompt_gbp.txt
file supplied it as stripped non-empty content. -/
lemma get_prompts_gbp_override (avail : Bool) (idc : Option String)
    (listRes : Except String (List DriveFileMeta))
    (dl : String → Except String String) (files : List DriveFileMeta)
    (hls : listRes = .ok files)
    (h : (get_prompts avail idc listRes dl).gbp ≠ DEFAULT_PROMPT_GBP) :
    ∃ f ∈ files, py_lower f.name = "prompt_gbp.txt" ∧
      ∃ s, dl f.id = .ok s ∧ py_strip s ≠ "" ∧
        (get_prompts avail idc listRes dl).gbp = py_strip s := by
  unfold get_prompts at h ⊢
  split_ifs at h ⊢ with hg
  · exact absurd rfl h
  · simp only [hls] at h ⊢
    rcases foldl_prompts_gbp dl files defaultPrompts with h0 | hov
    · exact absurd h0 h
    · exact hov

/-- A listing failure is absorbed and yields the all-default set. -/
lemma get_prompts_error (avail : Bool) (idc : Option String)
    (dl : String → Except String String) (e : String) :
    get_prompts avail idc (.error e) dl = defaultPrompts := by
  unfold get_prompts
  split_ifs <;> rfl

/-- Claim C5: the prompt resolver never raises (it is a total function of
the outcomes of every external call it makes); for every combination of
availability, config-folder presence, listing outcome and per-file
download outcome, every prompt without an effective override holds its
built-in default, and a listing failure yields the all-default set. -/
theorem claim_C5 (avail : Bool) (idc : Option String)
    (listRes : Except String (List DriveFileMeta))
    (dl : String → Except String String) :
    ((∃ e, listRes = Except.error e) →
      get_prompts avail idc listRes dl = defaultPrompts) ∧
    (∀ files, listRes = Except.ok files →
      ((∀ f ∈ files, effective_override dl f "prompt_linkedin.txt" = false) →
        (get_prompts avail idc listRes dl).linkedin = DEFAULT_PROMPT_LINKEDIN) ∧
      ((∀ f ∈ files, effective_override dl f "prompt_meta.txt" = false) →
        (get_prompts avail idc listRes dl).meta = DEFAULT_PROMPT_META) ∧
      ((∀ f ∈ files, effective_override dl f "prompt_gbp.txt" = false) →
        (get_prompts avail idc listRes dl).gbp = DEFAULT_PROMPT_GBP)) := by
  constructor
  · rintro ⟨e, rfl⟩
    exact get_prompts_error avail idc dl e
  · intro files hls
    exact ⟨get_prompts_linkedin_default avail idc listRes dl files hls,
      get_prompts_meta_default avail idc listRes dl files hls,
      get_prompts_gbp_default avail idc listRes dl files hls⟩

/-- A download oracle whose files all hold whitespace-only content. -/
def dlBlank : String → Except String String := fun _ => .ok "   "

/-- A download oracle whose files hold a real prompt with surrounding
whitespace. -/
def dlPrompt : String → Except String String :=
  fun _ => .ok "  Write a short caption.  "

/-- Witness for C5: a failed listing yields all defaults, and a listing
with no prompt-named file leaves the linkedin default in place. -/
theorem claim_C5_witness :
    get_prompts true (some "CFG") (Except.error "listing failed") dlBlank = defaultPrompts ∧
    (get_prompts true (some "CFG")
        (Except.ok [({ id := "f1", name := "notes.txt" } : DriveFileMeta)])
        dlBlank).linkedin = DEFAULT_PROMPT_LINKEDIN :=
  ⟨(claim_C5 true (some "CFG") (Except.error "listing failed") dlBlank).1
      ⟨"listing failed", rfl⟩,
   ((claim_C5 true (some "CFG")
        (Except.ok [({ id := "f1", name := "notes.txt" } : DriveFileMeta)])
        dlBlank).2 [{ id := "f1", name := "notes.txt" }] rfl).1 (by decide)⟩

/-- Claim C6: an override file whose downloaded content is empty or
whitespace-only does not override (the prompt keeps its default); an
override replaces the default only with content that is non-empty after
stripping surrounding whitespace. -/
theorem claim_C6 (avail : Bool) (idc : Option String)
    (listRes : Except String (List DriveFileMeta))
    (dl : String → Except String String) (files : List DriveFileMeta)
    (hls : listRes = Except.ok files) :
    ((∀ f ∈ files, py_lower f.name = "prompt_linkedin.txt" →
        ∃ s, dl f.id = Except.ok s ∧ py_strip s = "") →
      (get_prompts avail idc listRes dl).linkedin = DEFAULT_PROMPT_LINKEDIN) ∧
    ((∀ f ∈ files, py_lower f.name = "prompt_meta.txt" →
        ∃ s, dl f.id = Except.ok s ∧ py_strip s = "") →
      (get_prompts avail idc listRes dl).meta = DEFAULT_PROMPT_META) ∧
    ((∀ f ∈ files, py_lower f.name = "prompt_gbp.txt" →
        ∃ s, dl f.id = Except.ok s ∧ py_strip s = "") →
      (get_prompts avail idc listRes dl).gbp = DEFAULT_PROMPT_GBP) ∧
    ((get_prompts avail idc listRes dl).linkedin ≠ DEFAULT_PROMPT_LINKEDIN →
      ∃ f ∈ files, py_lower f.name = "prompt_linkedin.txt" ∧
        ∃ s, dl f.id = Except.ok s ∧ py_strip s ≠ "" ∧
          (get_prompts avail idc listRes dl).linkedin = py_strip s) ∧
    ((get_prompts avail idc listRes dl).meta ≠ DEFAULT_PROMPT_META →
      ∃ f ∈ files, py_lower f.name = "prompt_meta.txt" ∧
        ∃ s, dl f.id = Except.ok s ∧ py_strip s ≠ "" ∧
          (get_prompts avail idc listRes dl).meta = py_strip s) ∧
    ((get_prompts avail idc listRes dl).gbp ≠ DEFAULT_PROMPT_GBP →
      ∃ f ∈ files, py_lower f.name = "prompt_gbp.txt" ∧
        ∃ s, dl f.id = Except.ok s ∧ py_strip s ≠ "" ∧
          (get_prompts avail idc listRes dl).gbp = py_strip s) := by
  have hconv : ∀ (nm : String),
      (∀ f ∈ files, py_lower f.name = nm → ∃ s, dl f.id = Except.ok s ∧ py_strip s = "") →
      ∀ f ∈ files, effective_override dl f nm = false := by
    intro nm hh f hf
    by_cases hnm : py_lower f.name = nm
    · obtain ⟨s, hdls, hstrip⟩ := hh f hf hnm
      simp [effective_override, get_text_content, hdls, hstrip]
    · simp [effective_override, hnm]
  refine ⟨?_, ?_, ?_, ?_, ?_, ?_⟩
  · intro hh
    exact get_prompts_linkedin_default avail idc listRes dl files hls
      (hconv "prompt_linkedin.txt" hh)
  · intro hh
    exact get_prompts_meta_default avail idc listRes dl files hls
      (hconv "prompt_meta.txt" hh)
  · intro hh
    exact get_prompts_gbp_default avail idc listRes dl files hls
      (hconv "prompt_gbp.txt" hh)
  · exact get_prompts_linkedin_override avail idc listRes dl files hls
  · exact get_prompts_meta_override avail idc listRes dl files hls
  · exact get_prompts_gbp_override avail idc listRes dl files hls

/-- Witness for C6: a whitespace-only prompt_gbp.txt leaves the gbp
default; a real prompt_linkedin.txt (mixed case, padded content)
effectively overrides with the stripped content. -/
theorem claim_C6_witness :
    (get_prompts true (some "CFG")
        (Except.ok [({ id := "p1", name := "prompt_gbp.txt" } : DriveFileMeta)])
        dlBlank).gbp = DEFAULT_PROMPT_GBP ∧
    (∃ f ∈ [({ id := "p2", name := "Prompt_LinkedIn.TXT" } : DriveFileMeta)],
      py_lower f.name = "prompt_linkedin.txt" ∧
        ∃ s, dlPrompt f.id = Except.ok s ∧ py_strip s ≠ "" ∧
          (get_prompts true (some "CFG")
              (Except.ok [({ id := "p2", name := "Prompt_LinkedIn.TXT" } : DriveFileMeta)])
              dlPrompt).linkedin = py_strip s) :=
  ⟨(claim_C6 true (some "CFG")
      (Except.ok [({ id := "p1", name := "prompt_gbp.txt" } : DriveFileMeta)])
      dlBlank [{ id := "p1", name := "prompt_gbp.txt" }] rfl).2.2.1
      (by intro f hf hnm; exact ⟨"   ", rfl, rfl⟩),
   (claim_C6 true (some "CFG")
      (Except.ok [({ id := "p2", name := "Prompt_LinkedIn.TXT" } : DriveFileMeta)])
      dlPrompt [{ id := "p2", name := "Prompt_LinkedIn.TXT" }] rfl).2.2.2.1
      (by decide)⟩

/-- Claim C7: if the source type requires captions and a generation call
fails (the caption stage errors), the exception propagates out of the
generator, no webhook request is made, and the file is relocated to the
errors folder when configured, otherwise left in place. -/
theorem claim_C7 (env : ProcessEnv) (cfg : Config) (prompts : Prompts)
    (st : String) (img e : String)
    (hdl : env.downloadMedia = .ok img)
    (_hst : st = "linkedin" ∨ st = "meta" ∨ st = "gbp" ∨ st = "all")
    (hbc : build_captions env.modelResponse prompts st = .error e) :
    (process_file env cfg prompts st).webhookAttempted = none ∧
    (process_file env cfg prompts st).moves =
      (if cfg.idErrors.isSome then [Dest.errors] else []) ∧
    (∀ msg, generate_caption (Except.error msg) = Except.error msg) := by
  have hres : process_file env cfg prompts st = { moves := errorMoves cfg } := by
    unfold process_file
    simp only [hdl, hbc]
  rw [hres]
  exact ⟨rfl, rfl, fun msg => rfl⟩

/-- Witness for C7 at a concrete linkedin-sourced run with a failing
Gemini call and the errors folder configured. -/
theorem claim_C7_witness :
    (process_file envGenFail cfgFull defaultPrompts "linkedin").webhookAttempted = none ∧
    (process_file envGenFail cfgFull defaultPrompts "linkedin").moves =
      (if cfgFull.idErrors.isSome then [Dest.errors] else []) ∧
    (∀ msg, generate_caption (Except.error msg) = Except.error msg) :=
  claim_C7 envGenFail cfgFull defaultPrompts "linkedin" "image-bytes"
    "Gemini generation failed" rfl (Or.inl rfl) rfl

/-- `move_file_body` on a successful parents read reduces to the outcome
of the single update call on the canonical request. -/
lemma move_file_body_ok (update : UpdateCall → Except String Unit)
    (dest : String) (parents : List String) :
    move_file_body (Except.ok parents) update dest =
      (match update { addParents := dest
                      removeParents := String.intercalate "," parents } with
       | .ok _ => Except.ok ({ addParents := dest
                               removeParents := String.intercalate "," parents } : UpdateCall)
       | .error e => Except.error e) := by
  cases hu : update { addParents := dest, removeParents := String.intercalate "," parents } with
  | error e => simp only [move_file_body, hu]
  | ok u => simp only [move_file_body, hu]

/-- Claim C8: the relocator never lets an exception past its boundary
(every combination of read / update outcomes yields a normal return), and
on success the single update call adds the destination and removes the
comma-joined list of every previously-read parent. -/
theorem claim_C8 (getParents : Except String (List String))
    (update : UpdateCall → Except String Unit) (dest : String) :
    (∃ v, move_file getParents update dest = Except.ok v) ∧
    (∀ parents call, getParents = Except.ok parents →
      move_file getParents update dest = Except.ok (some call) →
      call.addParents = dest ∧
      call.removeParents = String.intercalate "," parents) := by
  constructor
  · unfold move_file
    cases hb : move_file_body getParents update dest with
    | ok c => exact ⟨some c, rfl⟩
    | error e => exact ⟨none, rfl⟩
  · intro parents call hp hm
    subst hp
    unfold move_file at hm
    rw [move_file_body_ok update dest parents] at hm
    cases hu : update { addParents := dest
                        removeParents := String.intercalate "," parents } with
    | error e =>
      simp only [hu] at hm
      injection hm with hm
      exact Option.noConfusion hm
    | ok u =>
      simp only [hu] at hm
      injection hm with hm
      injection hm with hm
      subst hm
      exact ⟨rfl, rfl⟩

/-- Witness for C8 at a concrete successful move of a file with parents
A and B. -/
theorem claim_C8_witness :
    (∃ v, move_file (Except.ok ["A", "B"]) (fun _ => Except.ok ()) "DST" = Except.ok v) ∧
    (({ addParents := "DST", removeParents := "A,B" } : UpdateCall).addParents = "DST" ∧
     ({ addParents := "DST", removeParents := "A,B" } : UpdateCall).removeParents =
       String.intercalate "," ["A", "B"]) :=
  ⟨(claim_C8 (Except.ok ["A", "B"]) (fun _ => Except.ok ()) "DST").1,
   (claim_C8 (Except.ok ["A", "B"]) (fun _ => Except.ok ()) "DST").2 ["A", "B"]
     { addParents := "DST", removeParents := "A,B" } rfl (by rfl)⟩

/-- As long as no cycle is interrupted, the loop is still running after
`n` cycles and has slept the fixed 60 seconds after each one. -/
lemma poll_loop_running (outcomes : Nat → CycleOutcome) :
    ∀ n, (∀ i, i < n → outcomes i ≠ CycleOutcome.interrupt) →
      poll_loop outcomes n = (LoopStatus.running, List.replicate n 60) := by
  intro n
  induction n with
  | zero => intro h; rfl
  | succ n ih =>
    intro h
    have hrec := ih (fun i hi => h i (Nat.lt_succ_of_lt hi))
    rw [poll_loop, hrec]
    cases ho : outcomes n with
    | interrupt => exact absurd ho (h n (Nat.lt_succ_self n))
    | ok => rw [List.replicate_succ']
    | exn m => rw [List.replicate_succ']

/-- An interrupt in cycle `k` (after `k` uninterrupted cycles) stops the
loop there: after any `n > k` cycles the loop is stopped with exactly the
`k` sleeps it had performed. -/
lemma poll_loop_stopped (outcomes : Nat → CycleOutcome) (k : Nat)
    (hk : ∀ i, i < k → outcomes i ≠ CycleOutcome.interrupt)
    (hint : outcomes k = CycleOutcome.interrupt) :
    ∀ n, k < n →
      poll_loop outcomes n = (LoopStatus.stoppedByInterrupt, List.replicate k 60) := by
  intro n
  induction n with
  | zero => intro hlt; exact absurd hlt (Nat.not_lt_zero k)
  | succ n ih =>
    intro hlt
    rcases Nat.lt_succ_iff_lt_or_eq.mp hlt with h' | h'
    · rw [poll_loop, ih h']
    · subst h'
      rw [poll_loop, poll_loop_running outcomes k hk, hint]

/-- Claim C9: the poll loop never terminates except on interruption (as
long as no cycle is interrupted it keeps cycling, sleeping the fixed 60
seconds after both completed and failed cycles); the first interrupt
stops it cleanly; and a failed Drive-service construction ends the
process before the loop is entered. -/
theorem claim_C9 (driveServiceOk : Bool) (outcomes : Nat → CycleOutcome) (n k : Nat) :
    (driveServiceOk = false →
      main_after driveServiceOk outcomes n = MainState.exitedBeforeLoop) ∧
    (driveServiceOk = true → (∀ i, i < n → outcomes i ≠ CycleOutcome.interrupt) →
      main_after driveServiceOk outcomes n =
        MainState.inLoop (LoopStatus.running, List.replicate n 60)) ∧
    (driveServiceOk = true → (∀ i, i < k → outcomes i ≠ CycleOutcome.interrupt) →
      outcomes k = CycleOutcome.interrupt → k < n →
      main_after driveServiceOk outcomes n =
        MainState.inLoop (LoopStatus.stoppedByInterrupt, List.replicate k 60)) := by
  refine ⟨?_, ?_, ?_⟩
  · intro h
    unfold main_after
    rw [h]
    rfl
  · intro h hno
    unfold main_after
    rw [h, poll_loop_running outcomes n hno, if_pos rfl]
  · intro h hk hint hkn
    unfold main_after
    rw [h, poll_loop_stopped outcomes k hk hint n hkn, if_pos rfl]

/-- Cycle outcomes for the C9 witness: two clean cycles, then an
interrupt. -/
def outW : Nat → CycleOutcome :=
  fun i => if i < 2 then CycleOutcome.ok else CycleOutcome.interrupt

/-- Witness for C9: startup failure exits before the loop; two
uninterrupted cycles leave the loop running with two 60-second sleeps; an
interrupt in cycle 2 stops the loop there. -/
theorem claim_C9_witness :
    main_after false outW 5 = MainState.exitedBeforeLoop ∧
    main_after true outW 2 = MainState.inLoop (LoopStatus.running, List.replicate 2 60) ∧
    main_after true outW 5 =
      MainState.inLoop (LoopStatus.stoppedByInterrupt, List.replicate 2 60) :=
  ⟨(claim_C9 false outW 5 0).1 rfl,
   (claim_C9 true outW 2 0).2.1 rfl (by decide),
   (claim_C9 true outW 5 2).2.2 rfl (by decide) (by decide) (by decide)⟩

/-- Claim C10: for a source type outside the recognized set, after a
successful download the webhook is still dispatched, with a payload
holding no caption field, no target field (and no image_url); staging
never runs; the fallthrough is silent rather than an error. -/
theorem claim_C10 (env : ProcessEnv) (cfg : Config) (prompts : Prompts)
    (st : String) (img : String)
    (h1 : st ≠ "linkedin") (h2 : st ≠ "meta") (h3 : st ≠ "gbp") (h4 : st ≠ "all")
    (hdl : env.downloadMedia = .ok img) :
    (process_file env cfg prompts st).webhookAttempted = some {} ∧
    (process_file env cfg prompts st).stagingInvoked = false ∧
    ({} : Payload).caption_linkedin = none ∧ ({} : Payload).caption_meta = none ∧
    ({} : Payload).caption_gbp = none ∧ ({} : Payload).target = none ∧
    ({} : Payload).image_url = none := by
  have hbc : build_captions env.modelResponse prompts st = .ok {} := by
    unfold build_captions
    rw [if_neg h1, if_neg h2, if_neg h3, if_neg h4]
  have hcond : ¬((st = "meta" ∨ st = "all") ∧ cfg.r2ClientAvailable = true) := by
    rintro ⟨hor, _⟩
    rcases hor with h | h
    · exact h2 h
    · exact h4 h
  have hres : process_file env cfg prompts st = dispatch_and_relocate env cfg st {} := by
    unfold process_file
    simp only [hdl, hbc]
  obtain ⟨hw, hs⟩ := dispatch_and_relocate_fields env cfg st ({} : Payload)
  rw [hres, hw, hs, apply_staging_not_invoked cfg st env.r2Put env.r2Presign {} hcond]
  exact ⟨rfl, rfl, rfl, rfl, rfl, rfl, rfl⟩

/-- Witness for C10 at a concrete unrecognized source type. -/
theorem claim_C10_witness :
    (process_file envOK cfgFull defaultPrompts "tiktok").webhookAttempted = some {} ∧
    (process_file envOK cfgFull defaultPrompts "tiktok").stagingInvoked = false ∧
    ({} : Payload).caption_linkedin = none ∧ ({} : Payload).caption_meta = none ∧
    ({} : Payload).caption_gbp = none ∧ ({} : Payload).target = none ∧
    ({} : Payload).image_url = none :=
  claim_C10 envOK cfgFull defaultPrompts "tiktok" "image-bytes"
    (by decide) (by decide) (by decide) (by decide) rfl

end KolmoSocial
